import Mathlib

/-!
Verification of the image-scraping core of this repository
(`src/scraping/core.py`): the page fetcher (`scrape_page`), the image
extractor (`extract_images_urls`) and the resilient downloader
(`download_image`).

The Python code is shallowly embedded: every translated definition mirrors
the corresponding source lines.  External capabilities (the `requests` HTTP
transport, the filesystem, `time.sleep`, `time.time`) are passed in as
explicit oracles, and the side effects the code performs are recorded in an
explicit event trace, so that properties about attempt counts, backoff
sleeps and directory creation are statable.  The URL helpers the source
imports from `urllib.parse` (`urljoin`, `urlparse`, `unquote`) and from
`os.path` (`basename`, `splitext`, `join`) are embedded from their CPython
(3.10) implementations, including the removal of tab/CR/LF bytes and the
`ValueError("Invalid IPv6 URL")` raise of `urlsplit` on an unbalanced
bracket in the network location (modelled as `none`), which is the one
exception reachable from `extract_images_urls`'s per-element handler;
`unquote` is restricted to the single-byte percent-sequences the source
exercises.
-/

/-! ### Characters and strings: helpers mirroring Python `str` methods -/

/-- Python `s.startswith(p)`: `p` is a prefix of `s`. -/
def strStartsWith (s p : String) : Bool :=
  p.data.isPrefixOf s.data

/-- ASCII lower-casing of one character (Python `str.lower` on ASCII). -/
def lowerChar (c : Char) : Char :=
  if 'A' ≤ c ∧ c ≤ 'Z' then Char.ofNat (c.toNat + 32) else c

/-- Python `s.lower()` for the ASCII strings the source manipulates. -/
def strToLower (s : String) : String :=
  String.mk (s.data.map lowerChar)

/-- Python whitespace used by `str.strip()` (ASCII subset). -/
def isPySpace (c : Char) : Bool :=
  c = ' ' ∨ c = '\t' ∨ c = '\n' ∨ c = '\r' ∨ c.toNat = 11 ∨ c.toNat = 12

/-- Python `s.strip()`: drop leading and trailing whitespace. -/
def pyStrip (s : String) : String :=
  String.mk (((s.data.dropWhile isPySpace).reverse.dropWhile isPySpace).reverse)

/-- Split a character list at every occurrence of `c`
(Python `s.split(c)`; always at least one piece). -/
def splitOnChar (c : Char) : List Char → List (List Char)
  | [] => [[]]
  | x :: xs =>
    let r := splitOnChar c xs
    if x = c then
      [] :: r
    else
      match r with
      | [] => [[x]]
      | y :: ys => (x :: y) :: ys

/-- Split at the first occurrence of `c`, if any (Python `s.split(c, 1)`). -/
def splitAtFirst (c : Char) : List Char → Option (List Char × List Char)
  | [] => none
  | x :: xs =>
    if x = c then some ([], xs)
    else (splitAtFirst c xs).map (fun p => (x :: p.1, p.2))

/-- Join pieces with a separator character (Python `c.join(parts)`). -/
def joinChar (c : Char) : List (List Char) → List Char
  | [] => []
  | [x] => x
  | x :: xs => x ++ c :: joinChar c xs

/-- Join strings with a separator (Python `sep.join(parts)`). -/
def joinStrings (sep : String) : List String → String
  | [] => ""
  | [x] => x
  | x :: xs => x ++ sep ++ joinStrings sep xs

/-- Index of the last occurrence of `c` in the list, if any
(Python `s.rfind(c)` when non-negative). -/
def lastIdxOfAux (c : Char) : List Char → Nat → Option Nat
  | [], _ => none
  | x :: xs, i =>
    match lastIdxOfAux c xs (i + 1) with
    | some j => some j
    | none => if x = c then some i else none

/-- Index of the last occurrence of `c`, if any. -/
def lastIdxOf (c : Char) (l : List Char) : Option Nat :=
  lastIdxOfAux c l 0

/-- Value of one hexadecimal digit, if the character is one. -/
def hexVal (c : Char) : Option Nat :=
  if '0' ≤ c ∧ c ≤ '9' then some (c.toNat - '0'.toNat)
  else if 'a' ≤ c ∧ c ≤ 'f' then some (c.toNat - 'a'.toNat + 10)
  else if 'A' ≤ c ∧ c ≤ 'F' then some (c.toNat - 'A'.toNat + 10)
  else none

/-- `urllib.parse.unquote`, byte-wise: each valid `%XX` escape becomes the
character with that code; invalid escapes are kept literally.  (CPython
additionally UTF-8-decodes consecutive escaped bytes; for the single-byte
sequences relevant here the two agree.) -/
def unquoteChars : List Char → List Char
  | '%' :: a :: b :: rest =>
    match hexVal a, hexVal b with
    | some x, some y => Char.ofNat (16 * x + y) :: unquoteChars rest
    | _, _ => '%' :: unquoteChars (a :: b :: rest)
  | c :: rest => c :: unquoteChars rest
  | [] => []

/-- `urllib.parse.unquote` on strings. -/
def unquoteStr (s : String) : String :=
  String.mk (unquoteChars s.data)

/-! ### `urllib.parse`: urlsplit / urlparse / urlunsplit / urljoin

Embedded from CPython's `urllib/parse.py` (the code path for the `http`
and `https` scheme family the source uses). -/

/-- Characters allowed in a URL scheme (CPython `scheme_chars`). -/
def schemeChars : List Char :=
  "abcdefghijklmnopqrstuvwxyzABCDEFGHIJKLMNOPQRSTUVWXYZ0123456789+-.".data

/-- ASCII letter test (CPython `url[0].isascii() and url[0].isalpha()`). -/
def isAsciiAlpha (c : Char) : Bool :=
  ('a' ≤ c ∧ c ≤ 'z') ∨ ('A' ≤ c ∧ c ≤ 'Z')

/-- CPython `_splitnetloc`: take the network location up to the first
`/`, `?` or `#`; the delimiter stays with the remainder. -/
def takeNetloc : List Char → List Char × List Char
  | [] => ([], [])
  | c :: rest =>
    if c = '/' ∨ c = '?' ∨ c = '#' then ([], c :: rest)
    else
      let p := takeNetloc rest
      (c :: p.1, p.2)

/-- Result of `urllib.parse.urlsplit`. -/
structure SplitResult where
  scheme : String
  netloc : String
  path : String
  query : String
  fragment : String
deriving DecidableEq

/-- CPython `_UNSAFE_URL_BYTES_TO_REMOVE`: `urlsplit` deletes every tab,
carriage return and newline from the URL before parsing it. -/
def removeUnsafe (l : List Char) : List Char :=
  l.filter (fun c => ¬ (c = '\t' ∨ c = '\r' ∨ c = '\n'))

/-- The splitting work of `urllib.parse.urlsplit url defaultScheme` (with
`allow_fragments`): unsafe-byte removal, scheme, netloc, fragment and
query extraction — everything except the Invalid-IPv6-URL validation,
which `urlsplit` adds on top. -/
def urlsplitTotal (urlS defaultScheme : String) : SplitResult :=
  let url0 := removeUnsafe urlS.data
  let schemeSplit :=
    match splitAtFirst ':' url0 with
    | some p =>
      if p.1 ≠ [] ∧ isAsciiAlpha (p.1.headD ' ') ∧ p.1.all (fun c => c ∈ schemeChars) then
        some (p.1.map lowerChar, p.2)
      else none
    | none => none
  let scheme := match schemeSplit with
    | some p => String.mk p.1
    | none => defaultScheme
  let url1 := match schemeSplit with
    | some p => p.2
    | none => url0
  let netlocSplit :=
    match url1 with
    | '/' :: '/' :: rest => takeNetloc rest
    | _ => ([], url1)
  let netloc := netlocSplit.1
  let url2 := netlocSplit.2
  let fragSplit := match splitAtFirst '#' url2 with
    | some p => p
    | none => (url2, [])
  let querySplit := match splitAtFirst '?' fragSplit.1 with
    | some p => p
    | none => (fragSplit.1, [])
  ⟨scheme, String.mk netloc, String.mk querySplit.1,
    String.mk querySplit.2, String.mk fragSplit.2⟩

/-- CPython's Invalid-IPv6-URL test inside `urlsplit`: a `[` without `]`
in the network location, or conversely. -/
def bracketsUnbalanced (netloc : List Char) : Bool :=
  (netloc.contains '[' && ! netloc.contains ']') ||
    (netloc.contains ']' && ! netloc.contains '[')

/-- `urllib.parse.urlsplit url defaultScheme`: `none` models the
`ValueError("Invalid IPv6 URL")` raise on an unbalanced bracket in the
network location. -/
def urlsplit (urlS defaultScheme : String) : Option SplitResult :=
  let s := urlsplitTotal urlS defaultScheme
  if bracketsUnbalanced s.netloc.data then none else some s

/-- Result of `urllib.parse.urlparse` (urlsplit plus path parameters). -/
structure ParseResult where
  scheme : String
  netloc : String
  path : String
  params : String
  query : String
  fragment : String
deriving DecidableEq

/-- CPython `uses_params`. -/
def usesParams : List String :=
  ["", "ftp", "hdl", "prospero", "http", "imap", "https", "shttp", "rtsp",
   "rtspu", "sip", "sips", "mms", "sftp", "tel"]

/-- CPython `uses_relative`. -/
def usesRelative : List String :=
  ["", "ftp", "http", "gopher", "nntp", "imap", "wais", "file", "https",
   "shttp", "mms", "prospero", "rtsp", "rtspu", "sftp", "svn", "svn+ssh",
   "ws", "wss"]

/-- CPython `uses_netloc`. -/
def usesNetloc : List String :=
  ["", "ftp", "http", "gopher", "nntp", "telnet", "imap", "wais", "file",
   "mms", "https", "shttp", "snews", "prospero", "rtsp", "rtspu", "rsync",
   "svn", "svn+ssh", "sftp", "nfs", "git", "git+ssh", "ws", "wss",
   "itms-services"]

/-- Split the last path segment, if the path contains a `/`:
`some (a, b)` with `l = a ++ '/' :: b` and no `/` in `b`. -/
def splitLastSlash (l : List Char) : Option (List Char × List Char) :=
  let parts := splitOnChar '/' l
  match parts with
  | [] => none
  | [_] => none
  | _ => some (joinChar '/' parts.dropLast, parts.getLastD [])

/-- CPython `_splitparams`: split `;params` off the last path segment. -/
def splitparams (l : List Char) : List Char × List Char :=
  match splitLastSlash l with
  | some p =>
    match splitAtFirst ';' p.2 with
    | some q => (p.1 ++ '/' :: q.1, q.2)
    | none => (l, [])
  | none =>
    match splitAtFirst ';' l with
    | some q => (q.1, q.2)
    | none => (l, [])

/-- The params-splitting step `urllib.parse.urlparse` performs on top of
a split result. -/
def addParams (s : SplitResult) : ParseResult :=
  let pp :=
    if usesParams.contains s.scheme ∧ s.path.data.contains ';' then
      splitparams s.path.data
    else (s.path.data, [])
  ⟨s.scheme, s.netloc, String.mk pp.1, String.mk pp.2, s.query, s.fragment⟩

/-- `urllib.parse.urlparse` without the bracket validation.  Used only to
model the `urlparse(unquote(url))` call of `download_image` (core.py line
243), which sits outside any handler; the downloader claims do not
exercise bracket-malformed authorities, so the derivation is kept total
here (on every bracket-balanced URL the two agree). -/
def urlparseTotal (url defaultScheme : String) : ParseResult :=
  addParams (urlsplitTotal url defaultScheme)

/-- `urllib.parse.urlparse url defaultScheme`; `none` models the
propagated `ValueError` of `urlsplit`. -/
def urlparse (url defaultScheme : String) : Option ParseResult :=
  (urlsplit url defaultScheme).map addParams

/-- `urllib.parse.urlunsplit`. -/
def urlunsplit (scheme netloc path query fragment : String) : String :=
  let url := path
  let url :=
    if netloc ≠ "" ∨ (url ≠ "" ∧ strStartsWith url "//") then
      "//" ++ netloc ++ (if url ≠ "" ∧ ¬ strStartsWith url "/" then "/" ++ url else url)
    else url
  let url := if scheme ≠ "" then scheme ++ ":" ++ url else url
  let url := if query ≠ "" then url ++ "?" ++ query else url
  if fragment ≠ "" then url ++ "#" ++ fragment else url

/-- `urllib.parse.urlunparse`. -/
def urlunparse (scheme netloc path params query fragment : String) : String :=
  let path := if params ≠ "" then path ++ ";" ++ params else path
  urlunsplit scheme netloc path query fragment

/-- The dot-segment resolution loop of CPython `urljoin`
(`'..'` pops, `'.'` is skipped, anything else is appended). -/
def resolveSegs (acc : List String) : List String → List String
  | [] => acc
  | seg :: rest =>
    if seg = ".." then resolveSegs acc.dropLast rest
    else if seg = "." then resolveSegs acc rest
    else resolveSegs (acc ++ [seg]) rest

/-- CPython's `segments[1:-1] = filter(None, segments[1:-1])`, applied to
the tail of the segment list: empty middle segments are dropped, the last
segment is kept. -/
def filterMiddleKeepLast : List String → List String
  | [] => []
  | [x] => [x]
  | x :: xs =>
    if x = "" then filterMiddleKeepLast xs else x :: filterMiddleKeepLast xs

/-- `urllib.parse.urljoin base url`: standard base-relative resolution,
embedded from CPython `urllib/parse.py`; `none` models a propagated
`ValueError` from parsing either argument (Invalid IPv6 URL). -/
def urljoin (base url : String) : Option String :=
  if base = "" then some url
  else if url = "" then some base
  else
    match urlparse base "" with
    | none => none
    | some b =>
      match urlparse url b.scheme with
      | none => none
      | some r =>
        if r.scheme ≠ b.scheme ∨ ¬ usesRelative.contains r.scheme then some url
        else if usesNetloc.contains r.scheme ∧ r.netloc ≠ "" then
          some (urlunparse r.scheme r.netloc r.path r.params r.query r.fragment)
        else
          let netloc := if usesNetloc.contains r.scheme then b.netloc else r.netloc
          if r.path = "" ∧ r.params = "" then
            let query := if r.query = "" then b.query else r.query
            some (urlunparse r.scheme netloc b.path b.params query r.fragment)
          else
            let baseParts0 := (splitOnChar '/' b.path.data).map String.mk
            let baseParts :=
              if baseParts0.getLastD "" ≠ "" then baseParts0.dropLast else baseParts0
            let psegs := (splitOnChar '/' r.path.data).map String.mk
            let segments :=
              if strStartsWith r.path "/" then psegs
              else
                match baseParts ++ psegs with
                | [] => []
                | x :: xs => x :: filterMiddleKeepLast xs
            let resolved := resolveSegs [] segments
            let resolved :=
              if segments.getLastD "" = "." ∨ segments.getLastD "" = ".." then
                resolved ++ [""]
              else resolved
            let pathString := joinStrings "/" resolved
            let pathString := if pathString = "" then "/" else pathString
            some (urlunparse r.scheme netloc pathString r.params r.query r.fragment)

example : urljoin "https://x.com/a/b" "../c.png" = some "https://x.com/c.png" := by decide
example : urljoin "https://x.com/a/b" "c.png" = some "https://x.com/a/c.png" := by decide
example : urljoin "https://x.com/a/b" "/c.png" = some "https://x.com/c.png" := by decide
example : urljoin "https://x.com/a/b" "//cdn.y.org/z.png" =
    some "https://cdn.y.org/z.png" := by decide
example : urljoin "https://x.com/a/b?q=1" "#frag" =
    some "https://x.com/a/b?q=1#frag" := by decide
example : urljoin "https://x.com/a/b" "//[x" = none := by decide
example : urlsplit "https://e\t.com/a" "" = urlsplit "https://e.com/a" "" := by decide

/-! ### `os.path` helpers used by `download_image` -/

/-- `os.path.basename` (posix): everything after the last `/`. -/
def basenameChars (l : List Char) : List Char :=
  (splitOnChar '/' l).getLastD []

/-- `os.path.splitext` (posix): split off the extension at the last dot of
the final path component, unless every character of that component before
the dot is itself a dot (leading-dot "hidden" names keep no extension). -/
def splitext (p : String) : String × String :=
  let l := p.data
  match lastIdxOf '.' l with
  | none => (p, "")
  | some d =>
    let sep : Nat :=
      match lastIdxOf '/' l with
      | some s => s + 1
      | none => 0
    let hasNonDot : Bool :=
      (List.range l.length).any
        (fun j => decide (sep ≤ j) && decide (j < d) && (l.getD j '.' != '.'))
    if hasNonDot then (String.mk (l.take d), String.mk (l.drop d)) else (p, "")

example : splitext "photo.jpg" = ("photo", ".jpg") := by decide
example : splitext ".jpg" = (".jpg", "") := by decide
example : splitext "a.b.c" = ("a.b", ".c") := by decide
example : splitext "downloads/..jpg" = ("downloads/..jpg", "") := by decide
example : splitext "noext" = ("noext", "") := by decide

/-- `os.path.join` (posix) for the two-argument case the source uses. -/
def pathJoin (a b : String) : String :=
  if strStartsWith b "/" then b
  else if a = "" ∨ a.data.getLastD ' ' = '/' then a ++ b
  else a ++ "/" ++ b

/-! ### Fetcher: `scrape_page` (core.py lines 66-114)

The `requests.get` transport boundary is an oracle value describing what
the call does: either it raises one of the exception classes the source
catches, or it delivers a final response (after the library's internal
redirect handling) with a status code and a body.  Parsing the body with
BeautifulSoup is an external capability; the parsed document is modelled
by the text it was parsed from.  Each `except` branch of the source logs a
distinct message and falls through to `return None`; the model keeps the
classification in the `fail` constructor so that the branches remain
distinguishable. -/

/-- Outcome of the `requests.get` call inside `scrape_page`. -/
inductive FetchResult where
  /-- `requests.exceptions.Timeout` raised. -/
  | timeout
  /-- `requests.exceptions.ConnectionError` raised. -/
  | connectionError
  /-- another `requests.exceptions.RequestException` raised. -/
  | requestError
  /-- a non-requests exception raised. -/
  | unexpectedError
  /-- a response was delivered with this status code and body text. -/
  | resp (status : Nat) (text : String)
deriving DecidableEq

/-- The failure classification of `scrape_page` (one per `except` branch). -/
inductive FetchFailure where
  | timeout
  | httpStatusError (code : Nat)
  | connectionError
  | requestError
  | unexpectedError
deriving DecidableEq

/-- What `scrape_page` does: either it returns a parsed document (carrying
the fetched text), or it logs one failure class and returns `None`. -/
inductive PageResult where
  | doc (text : String)
  | fail (f : FetchFailure)
deriving DecidableEq

/-- `requests.Response.raise_for_status` raises `HTTPError` exactly for
status codes in `[400, 600)` (embedded from `requests/models.py`). -/
def raisesForStatus (status : Nat) : Prop :=
  400 ≤ status ∧ status < 600

instance (status : Nat) : Decidable (raisesForStatus status) :=
  inferInstanceAs (Decidable (_ ∧ _))

/-- `scrape_page` (core.py lines 89-114): GET, `raise_for_status`, parse;
each exception class is caught, logged and converted to `None`. -/
def scrape_page (transport : FetchResult) : PageResult :=
  match transport with
  | .timeout => .fail .timeout
  | .connectionError => .fail .connectionError
  | .requestError => .fail .requestError
  | .unexpectedError => .fail .unexpectedError
  | .resp status text =>
    if raisesForStatus status then .fail (.httpStatusError status)
    else .doc text

/-! ### Extractor: `extract_images_urls` (core.py lines 116-192)

A parsed document is modelled at the `soup.find_all('img')` boundary: the
list of its image elements in document order.  An element carries the
attributes the source reads (`src`, `data-src`, `data-lazy-src`, `alt`),
each `none` when absent.  Attribute access on this model is total, but the
per-element `try`/`except`/`continue` of the source (lines 161, 188-190)
is reachable: `urljoin` sits inside the `try` and raises `ValueError` for
source values whose authority has an unbalanced bracket (for example
`//[x`), in which case the element is logged and skipped.  `processImg`
therefore returns an `Option`: `none` is the caught-and-skipped path. -/

/-- One `<img>` element: the attributes the source reads. -/
structure Img where
  src : Option String
  dataSrc : Option String
  dataLazySrc : Option String
  alt : Option String
deriving DecidableEq

/-- One emitted reference (the dict built at lines 167-172 / 181-186). -/
structure ImageRef where
  position : Nat
  url : Option String
  alt : String
  page_url : String
deriving DecidableEq

/-- Python truthiness of an optional string: `None` and `""` are falsy. -/
def pyTruthy (o : Option String) : Bool :=
  (o.getD "") ≠ ""

/-- `img.get('src') or img.get('data-src') or img.get('data-lazy-src')`:
the first truthy value, else the value of the last operand. -/
def imgCandidate (img : Img) : Option String :=
  if pyTruthy img.src then img.src
  else if pyTruthy img.dataSrc then img.dataSrc
  else img.dataLazySrc

/-- The body of the `for i, img in enumerate(images, 1)` loop for one
element at position `pos` (core.py lines 160-190): `some ref` is an
appended reference, `none` is a `ValueError` raised by `urljoin`, caught
by the `except` at line 188 — the element is skipped. -/
def processImg (page_url : String) (pos : Nat) (img : Img) : Option ImageRef :=
  let imgUrl := imgCandidate img
  let altText := pyStrip (img.alt.getD "")
  if pyTruthy imgUrl then
    let u := imgUrl.getD ""
    if strStartsWith u "http" || strStartsWith u "https" then
      some ⟨pos, some u, altText, page_url⟩
    else
      match urljoin page_url u with
      | some j => some ⟨pos, some j, altText, page_url⟩
      | none => none
  else
    some ⟨pos, none, altText, page_url⟩

/-- The enumeration loop, starting at position `i`; a skipped element
still advances the enumeration index. -/
def extractFrom (page_url : String) : Nat → List Img → List ImageRef
  | _, [] => []
  | i, img :: rest =>
    match processImg page_url i img with
    | some ref => ref :: extractFrom page_url (i + 1) rest
    | none => extractFrom page_url (i + 1) rest

/-- `extract_images_urls` (core.py lines 116-192).  The `if not images:
return []` early exit (line 153) coincides with the loop on the empty
list.  Type validation (lines 145-150) is enforced by typing. -/
def extract_images_urls (page_url : String) (soup : List Img) : List ImageRef :=
  extractFrom page_url 1 soup

/-! ### Downloader: `download_image` (core.py lines 194-312)

The transport is an oracle mapping the attempt number to what the
streamed `requests.get` of that attempt does; the HEAD probe used for
extension inference is a second oracle; `int(time.time())` is the `now`
argument.  Side effects (directory creation, HEAD probe, GET attempts,
backoff sleeps, file writes) are recorded in an event trace.  Raising is
modelled by dedicated outcome constructors: `invalidURL` for the
`ValueError` of line 233, `osRaised` for a filesystem error escaping the
`open`/`write` block (lines 297-300), which the retry handler (line 305,
`except requests.exceptions.RequestException`) does not catch. -/

/-- Behaviour of the filesystem when an attempt streams to disk. -/
inductive WriteBehavior where
  /-- `open` and all chunk writes succeed. -/
  | ok
  /-- `open` or some chunk write raises `OSError`. -/
  | osError
deriving DecidableEq

/-- What the streamed `requests.get` of one attempt does. -/
inductive GetResult where
  /-- a `requests.exceptions.RequestException` is raised by the request. -/
  | transportErr
  /-- a response is delivered with this status, `content-type` header and
  filesystem behaviour when its body is streamed to disk. -/
  | resp (status : Nat) (contentType : String) (write : WriteBehavior)
deriving DecidableEq

/-- What the `requests.head` probe (lines 261-264) does. -/
inductive HeadOutcome where
  /-- a response with this `content-type` header. -/
  | resp (contentType : String)
  /-- any exception (caught by the bare `except` at line 265). -/
  | err
deriving DecidableEq

/-- The observable result of `download_image`. -/
inductive Outcome where
  /-- returned the saved full path. -/
  | saved (p : String)
  /-- returned `None`. -/
  | retNone
  /-- raised `ValueError` (invalid URL protocol, line 233). -/
  | invalidURL
  /-- propagated an `OSError` from the file open/write. -/
  | osRaised
deriving DecidableEq

/-- One recorded side effect of `download_image`. -/
inductive Ev where
  | mkdir (dir : String)
  | head (url : String)
  | get (url : String)
  | sleepFor (seconds : Nat)
  | write (path : String)
deriving DecidableEq

/-- `url.startswith(('http://', 'https://'))` (line 231). -/
def validUrl (url : String) : Bool :=
  strStartsWith url "http://" || strStartsWith url "https://"

/-- The extension allow-list of line 271. -/
def allowlist : List String :=
  [".jpg", ".jpeg", ".png", ".gif", ".webp"]

/-- Filename derivation (core.py lines 239-254): custom name if truthy,
else the percent-decoded URL's last path segment with any query remainder
stripped, else `image_<now>`; then sanitized. -/
def deriveFilename (now : Nat) (url : String) (customFilename : Option String) : String :=
  let filename :=
    if (customFilename.getD "") ≠ "" then customFilename.getD ""
    else
      let parsed := urlparseTotal (unquoteStr url) ""
      let fn := String.mk (basenameChars parsed.path.data)
      let fn := String.mk ((splitOnChar '?' fn.data).headD [])
      if fn = "" ∨ ¬ fn.data.contains '.' then "image_" ++ Nat.repr now else fn
  String.mk (filename.data.map
    (fun c => if c ∈ ['\\', '/', '*', '?', ':', '"', '<', '>', '|'] then '_' else c))

/-- Extension resolution before coercion (core.py lines 257-266): the
lower-cased extension of the derived filename; when it is empty, probe
with HEAD and derive from an `image/` content type, defaulting to `.jpg`
on any probe failure.  Returns the extension candidate and the probe
events performed. -/
def resolveExt (headRes : HeadOutcome) (url filename : String) : String × List Ev :=
  let e0 := strToLower (splitext filename).2
  if e0 = "" then
    match headRes with
    | .resp ct =>
      if strStartsWith ct "image/" then
        ("." ++ String.mk ((splitOnChar ';' ((splitOnChar '/' ct.data).getD 1 [])).headD []),
          [Ev.head url])
      else ("", [Ev.head url])
    | .err => (".jpg", [Ev.head url])
  else (e0, [])

/-- Full save-path derivation (core.py lines 239-276): filename, extension
coerced into the allow-list (lines 268-272), composed with the save
directory.  Returns the path and the probe events performed. -/
def deriveFullPath (headRes : HeadOutcome) (now : Nat) (url saveDir : String)
    (customFilename : Option String) : String × List Ev :=
  let filename := deriveFilename now url customFilename
  let er := resolveExt headRes url filename
  let fileExt :=
    if er.1 = "" then ".jpg"
    else if er.1 ∈ allowlist then er.1
    else ".jpg"
  let baseName := (splitext filename).1
  (pathJoin saveDir (baseName ++ fileExt), er.2)

/-- The retry loop `for attempt in range(retries + 1)` (core.py lines
279-310), with explicit fuel (`(retries + 1).toNat` iterations remain).
Each attempt: GET; a raised `RequestException` (transport error, or
`raise_for_status` on a 4xx/5xx response) is caught — on the last attempt
return `None`, otherwise sleep `2 ** attempt` and continue; a delivered
response whose content type does not start with `image/` returns `None`
immediately (line 294); otherwise the body is streamed to
`full_path` — a filesystem error there is not caught.  Running out of fuel
is the `return None` after the loop (line 312). -/
def downloadLoop (get : Nat → GetResult) (url fullPath : String) (retries : Int) :
    Nat → Nat → Outcome × List Ev
  | _, 0 => (.retNone, [])
  | attempt, fuel + 1 =>
    match get attempt with
    | .transportErr =>
      if (attempt : Int) = retries then (.retNone, [Ev.get url])
      else
        let r := downloadLoop get url fullPath retries (attempt + 1) fuel
        (r.1, Ev.get url :: Ev.sleepFor (2 ^ attempt) :: r.2)
    | .resp status ct w =>
      if raisesForStatus status then
        if (attempt : Int) = retries then (.retNone, [Ev.get url])
        else
          let r := downloadLoop get url fullPath retries (attempt + 1) fuel
          (r.1, Ev.get url :: Ev.sleepFor (2 ^ attempt) :: r.2)
      else if strStartsWith ct "image/" then
        match w with
        | .ok => (.saved fullPath, [Ev.get url, Ev.write fullPath])
        | .osError => (.osRaised, [Ev.get url, Ev.write fullPath])
      else (.retNone, [Ev.get url])

/-- `download_image` (core.py lines 194-312): URL validation, directory
creation, filename derivation, retry loop. -/
def download_image (get : Nat → GetResult) (headRes : HeadOutcome) (now : Nat)
    (url saveDir : String) (retries : Int) (customFilename : Option String) :
    Outcome × List Ev :=
  if validUrl url then
    let fp := deriveFullPath headRes now url saveDir customFilename
    let r := downloadLoop get url fp.1 retries 0 (retries + 1).toNat
    (r.1, Ev.mkdir saveDir :: fp.2 ++ r.2)
  else (.invalidURL, [])

/-! ### Trace accounting -/

/-- Number of GET attempts in a trace. -/
def getCount : List Ev → Nat
  | [] => 0
  | .get _ :: rest => getCount rest + 1
  | _ :: rest => getCount rest

/-- The backoff sleep durations of a trace, in order. -/
def sleepsOf : List Ev → List Nat
  | [] => []
  | .sleepFor n :: rest => n :: sleepsOf rest
  | _ :: rest => sleepsOf rest

/-- The trace of `k` consecutive failed-and-retried attempts starting at
attempt number `a`: each contributes a GET and a backoff sleep. -/
def retryTrace (url : String) (a : Nat) : Nat → List Ev
  | 0 => []
  | k + 1 => Ev.get url :: Ev.sleepFor (2 ^ a) :: retryTrace url (a + 1) k

example :
    download_image (fun _ => .resp 200 "image/png" .ok) .err 0
      "https://a.com/pic.png" "downloads" 2 none =
    (.saved "downloads/pic.png",
      [Ev.mkdir "downloads", Ev.get "https://a.com/pic.png",
       Ev.write "downloads/pic.png"]) := by decide

/-! ### Lemmas about the retry loop -/

/-- Skipping `k` consecutive transport failures starting at attempt `a`
(with `a + k ≤ retries`, so none of them is the last attempt): the loop
performs the `k` GET-and-sleep pairs and continues at attempt `a + k`. -/
theorem downloadLoop_skip (get : Nat → GetResult) (url p : String) (r : Nat)
    (k : Nat) :
    ∀ a, a + k ≤ r → (∀ i, a ≤ i → i < a + k → get i = .transportErr) →
    downloadLoop get url p (r : Int) a (r + 1 - a) =
      ((downloadLoop get url p (r : Int) (a + k) (r + 1 - (a + k))).1,
        retryTrace url a k ++
          (downloadLoop get url p (r : Int) (a + k) (r + 1 - (a + k))).2) := by
  induction k with
  | zero => intro a _ _; simp [retryTrace]
  | succ n ih =>
    intro a hak hfail
    have ha : a < r := by omega
    have hfu : r + 1 - a = (r - a) + 1 := by omega
    have hga : get a = .transportErr := hfail a le_rfl (by omega)
    have hane : ((a : Nat) : Int) ≠ ((r : Nat) : Int) := by
      intro h
      exact absurd (Int.ofNat.inj h) (Nat.ne_of_lt ha)
    rw [hfu]
    simp only [downloadLoop, hga, if_neg hane]
    have hstep : r - a = r + 1 - (a + 1) := by omega
    rw [hstep, ih (a + 1) (by omega) (fun i h1 h2 => hfail i (by omega) (by omega))]
    have hidx : a + 1 + n = a + (n + 1) := by omega
    simp [retryTrace, hidx]

/-- A delivered response with a non-raising status and an `image/` content
type whose body write succeeds ends the loop with the saved path. -/
theorem downloadLoop_success (get : Nat → GetResult) (url p : String) (r a st : Nat)
    (ct : String) (ha : a ≤ r) (hget : get a = .resp st ct .ok)
    (hst : ¬ raisesForStatus st) (hct : strStartsWith ct "image/" = true) :
    downloadLoop get url p (r : Int) a (r + 1 - a) =
      (.saved p, [Ev.get url, Ev.write p]) := by
  have hfu : r + 1 - a = (r - a) + 1 := by omega
  rw [hfu]
  simp [downloadLoop, hget, hst, hct]

/-- A delivered response with a non-raising status whose content type does
not start with `image/` ends the loop at once with `None`. -/
theorem downloadLoop_mismatch (get : Nat → GetResult) (url p : String) (r a st : Nat)
    (ct : String) (w : WriteBehavior) (ha : a ≤ r) (hget : get a = .resp st ct w)
    (hst : ¬ raisesForStatus st) (hct : strStartsWith ct "image/" = false) :
    downloadLoop get url p (r : Int) a (r + 1 - a) =
      (.retNone, [Ev.get url]) := by
  have hfu : r + 1 - a = (r - a) + 1 := by omega
  rw [hfu]
  simp [downloadLoop, hget, hst, hct]

/-- A delivered valid image response whose file write raises `OSError`
ends the loop by propagating the error. -/
theorem downloadLoop_osError (get : Nat → GetResult) (url p : String) (r a st : Nat)
    (ct : String) (ha : a ≤ r) (hget : get a = .resp st ct .osError)
    (hst : ¬ raisesForStatus st) (hct : strStartsWith ct "image/" = true) :
    downloadLoop get url p (r : Int) a (r + 1 - a) =
      (.osRaised, [Ev.get url, Ev.write p]) := by
  have hfu : r + 1 - a = (r - a) + 1 := by omega
  rw [hfu]
  simp [downloadLoop, hget, hst, hct]

/-- A saved path returned by the loop is always the `full_path` the loop
was given. -/
theorem downloadLoop_saved (get : Nat → GetResult) (url q : String) (retries : Int) :
    ∀ fuel a p, (downloadLoop get url q retries a fuel).1 = .saved p → p = q := by
  intro fuel
  induction fuel with
  | zero => intro a p h; simp [downloadLoop] at h
  | succ n ih =>
    intro a p h
    cases hg : get a with
    | transportErr =>
      simp only [downloadLoop, hg] at h
      by_cases hl : (a : Int) = retries
      · rw [if_pos hl] at h; simp at h
      · rw [if_neg hl] at h
        exact ih (a + 1) p h
    | resp st ct w =>
      simp only [downloadLoop, hg] at h
      by_cases hs : raisesForStatus st
      · rw [if_pos hs] at h
        by_cases hl : (a : Int) = retries
        · rw [if_pos hl] at h; simp at h
        · rw [if_neg hl] at h
          exact ih (a + 1) p h
      · rw [if_neg hs] at h
        by_cases hc : strStartsWith ct "image/" = true
        · rw [if_pos hc] at h
          cases w with
          | ok => simp at h; exact h.symm
          | osError => simp at h
        · rw [if_neg hc] at h; simp at h

/-! ### Trace accounting lemmas -/

/-- `getCount` distributes over concatenation. -/
theorem getCount_append (l1 l2 : List Ev) :
    getCount (l1 ++ l2) = getCount l1 + getCount l2 := by
  induction l1 with
  | nil => simp [getCount]
  | cons e rest ih => cases e <;> (simp [getCount, ih]; try omega)

/-- `sleepsOf` distributes over concatenation. -/
theorem sleepsOf_append (l1 l2 : List Ev) :
    sleepsOf (l1 ++ l2) = sleepsOf l1 ++ sleepsOf l2 := by
  induction l1 with
  | nil => simp [sleepsOf]
  | cons e rest ih => cases e <;> simp [sleepsOf, ih]

/-- The retry trace of `k` failed attempts records `k` GETs. -/
theorem retryTrace_getCount (url : String) (k : Nat) :
    ∀ a, getCount (retryTrace url a k) = k := by
  induction k with
  | zero => intro a; rfl
  | succ n ih =>
    intro a
    simp only [retryTrace, getCount, ih (a + 1)]

/-- The sleeps of `k` failed-and-retried attempts starting at attempt `a`
are `2^a, ..., 2^(a+k-1)`, in order. -/
theorem retryTrace_sleeps (url : String) (k : Nat) :
    ∀ a, sleepsOf (retryTrace url a k) = (List.range k).map (fun i => 2 ^ (a + i)) := by
  induction k with
  | zero => intro a; rfl
  | succ n ih =>
    intro a
    have hr : (List.range (n + 1)).map (fun i => 2 ^ (a + i)) =
        2 ^ a :: (List.range n).map (fun i => 2 ^ (a + 1 + i)) := by
      rw [List.range_succ_eq_map]
      simp only [List.map_cons, List.map_map, Nat.add_zero]
      congr 1
      apply List.map_congr_left
      intro i _
      show 2 ^ (a + Nat.succ i) = 2 ^ (a + 1 + i)
      congr 1
      omega
    rw [hr]
    simp only [retryTrace, sleepsOf]
    rw [ih (a + 1)]

/-- Geometric sum of the backoffs: `1 + 2 + ... + 2^(k-1) = 2^k - 1`. -/
theorem sum_pows (k : Nat) :
    ((List.range k).map (fun i => 2 ^ i)).sum = 2 ^ k - 1 := by
  induction k with
  | zero => simp
  | succ n ih =>
    rw [List.range_succ]
    simp [ih]
    have h1 : 0 < 2 ^ n := pow_pos (by norm_num) n
    rw [pow_succ]
    omega

/-- The probe events of extension resolution: nothing, or one HEAD. -/
theorem resolveExt_events (headRes : HeadOutcome) (url filename : String) :
    (resolveExt headRes url filename).2 = [] ∨
    (resolveExt headRes url filename).2 = [Ev.head url] := by
  simp only [resolveExt]
  by_cases h0 : strToLower (splitext filename).2 = ""
  · rw [if_pos h0]
    cases headRes with
    | resp ct =>
      by_cases hc : strStartsWith ct "image/" = true
      · simp [hc]
      · simp [hc]
    | err => right; rfl
  · rw [if_neg h0]; left; rfl

/-- The probe events of the path derivation: nothing, or one HEAD. -/
theorem deriveFullPath_events (headRes : HeadOutcome) (now : Nat)
    (url saveDir : String) (customFilename : Option String) :
    (deriveFullPath headRes now url saveDir customFilename).2 = [] ∨
    (deriveFullPath headRes now url saveDir customFilename).2 = [Ev.head url] := by
  simp only [deriveFullPath]
  exact resolveExt_events headRes url (deriveFilename now url customFilename)

/-- GETs and sleeps of the full `download_image` trace shape: the mkdir
and the optional HEAD probe contribute nothing; the loop trace counts `k`
failed GETs with their sleeps, then whatever the final attempt adds. -/
theorem dlTrace_counts (saveDir url : String) (fpEvs : List Ev) (k : Nat)
    (tail : List Ev) (hfp : fpEvs = [] ∨ fpEvs = [Ev.head url]) :
    getCount (Ev.mkdir saveDir :: fpEvs ++ (retryTrace url 0 k ++ tail)) =
      k + getCount tail ∧
    sleepsOf (Ev.mkdir saveDir :: fpEvs ++ (retryTrace url 0 k ++ tail)) =
      (List.range k).map (fun i => 2 ^ i) ++ sleepsOf tail := by
  have hg := retryTrace_getCount url k 0
  have hs := retryTrace_sleeps url k 0
  have hz : (List.range k).map (fun i => 2 ^ (0 + i)) =
      (List.range k).map (fun i => 2 ^ i) := by
    apply List.map_congr_left
    intro i _
    congr 1
    omega
  rcases hfp with rfl | rfl
  · simp [getCount, sleepsOf, getCount_append, sleepsOf_append, hg, hs, hz]
  · simp [getCount, sleepsOf, getCount_append, sleepsOf_append, hg, hs, hz]

/-- The extension coercion of lines 268-272 always lands in the
allow-list. -/
theorem fileExt_mem_allowlist (e : String) :
    (if e = "" then ".jpg" else if e ∈ allowlist then e else ".jpg") ∈ allowlist := by
  split
  · simp [allowlist]
  · split
    · assumption
    · simp [allowlist]

/-- Joining a directory with a name that ends in `c` yields a path that
ends in `c`. -/
theorem pathJoin_append_exists (a b c : String) :
    ∃ pre, pathJoin a (b ++ c) = pre ++ c := by
  unfold pathJoin
  split
  · exact ⟨b, rfl⟩
  · split
    · exact ⟨a ++ b, by simp [String.append_assoc]⟩
    · exact ⟨a ++ "/" ++ b, by simp [String.append_assoc]⟩

/-- The derived full path always ends in an allow-listed extension. -/
theorem deriveFullPath_ext (headRes : HeadOutcome) (now : Nat)
    (url saveDir : String) (customFilename : Option String) :
    ∃ e, e ∈ allowlist ∧
      ∃ pre, (deriveFullPath headRes now url saveDir customFilename).1 = pre ++ e := by
  refine ⟨_, fileExt_mem_allowlist
    ((resolveExt headRes url (deriveFilename now url customFilename)).1), ?_⟩
  exact pathJoin_append_exists saveDir
    ((splitext (deriveFilename now url customFilename)).1) _

/-! ### Lemmas about the extraction loop -/

/-- The loop emits at most one reference per element. -/
theorem extractFrom_length_le (page_url : String) (l : List Img) :
    ∀ k, (extractFrom page_url k l).length ≤ l.length := by
  induction l with
  | nil => intro k; exact Nat.le_refl 0
  | cons x xs ih =>
    intro k
    cases hp : processImg page_url k x with
    | none =>
      simp only [extractFrom, hp, List.length_cons]
      exact Nat.le_succ_of_le (ih (k + 1))
    | some ref =>
      simp only [extractFrom, hp, List.length_cons]
      exact Nat.succ_le_succ (ih (k + 1))

/-- The loop's output is the `filterMap` of per-element processing over
the enumerated element list: successfully processed elements appear in
document order at their enumeration index, failed ones are skipped. -/
theorem extractFrom_eq_filterMap (page_url : String) (l : List Img) :
    ∀ k, extractFrom page_url k l =
      (List.range l.length).filterMap
        (fun i => (l[i]?).bind (fun img => processImg page_url (k + i) img)) := by
  induction l with
  | nil => intro k; rfl
  | cons x xs ih =>
    intro k
    have hf : (fun i => (((x :: xs)[i]?).bind
          (fun img => processImg page_url (k + i) img))) ∘ Nat.succ =
        (fun i => ((xs[i]?).bind (fun img => processImg page_url (k + 1 + i) img))) := by
      funext i
      simp only [Function.comp_apply, List.getElem?_cons_succ, Nat.succ_eq_add_one]
      have hk : k + (i + 1) = k + 1 + i := by omega
      simp only [hk]
    rw [List.length_cons, List.range_succ_eq_map, List.filterMap_cons, List.filterMap_map, hf]
    simp only [List.getElem?_cons_zero, Option.some_bind, Nat.add_zero]
    simp only [extractFrom]
    cases hp : processImg page_url k x with
    | none => rw [ih (k + 1)]
    | some ref => rw [ih (k + 1)]

/-- An emitted reference's position field is the enumeration index, and
its page field the page URL. -/
theorem processImg_position (page_url : String) (p : Nat) (img : Img)
    (ref : ImageRef) (h : processImg page_url p img = some ref) :
    ref.position = p ∧ ref.page_url = page_url := by
  simp only [processImg] at h
  split at h
  · split at h
    · simp only [Option.some.injEq] at h
      subst h
      exact ⟨rfl, rfl⟩
    · split at h
      · simp only [Option.some.injEq] at h
        subst h
        exact ⟨rfl, rfl⟩
      · simp at h
  · simp only [Option.some.injEq] at h
    subst h
    exact ⟨rfl, rfl⟩

/-- An element carrying none of the three source attributes is always
emitted — that path cannot raise — with a null URL. -/
theorem processImg_noSource (page_url : String) (p : Nat) (img : Img)
    (h1 : img.src = none) (h2 : img.dataSrc = none) (h3 : img.dataLazySrc = none) :
    processImg page_url p img =
      some ⟨p, none, pyStrip (img.alt.getD ""), page_url⟩ := by
  simp [processImg, imgCandidate, pyTruthy, h1, h2, h3]


/-- Unfolding of `download_image` on a well-formed URL. -/
theorem download_image_valid (get : Nat → GetResult) (headRes : HeadOutcome)
    (now : Nat) (url saveDir : String) (retries : Int)
    (customFilename : Option String) (hurl : validUrl url = true) :
    download_image get headRes now url saveDir retries customFilename =
      ((downloadLoop get url (deriveFullPath headRes now url saveDir customFilename).1
          retries 0 (retries + 1).toNat).1,
        Ev.mkdir saveDir :: (deriveFullPath headRes now url saveDir customFilename).2 ++
          (downloadLoop get url (deriveFullPath headRes now url saveDir customFilename).1
            retries 0 (retries + 1).toNat).2) := by
  unfold download_image
  rw [hurl]
  rfl

/-! ### The claims -/

/-- C1 counterexample: an image whose `src` is `//[x` (truthy, not
`http`-prefixed) makes `urljoin` raise `ValueError("Invalid IPv6 URL")`;
the per-element `except` at core.py:188-190 catches it and the element is
skipped, so the output is shorter than the image-element count — refuting
"the output length always equals the number of image elements". -/
theorem extract_count_counterexample :
    (extract_images_urls "https://e.com/p" [⟨some "//[x", none, none, none⟩]).length ≠
      ([⟨some "//[x", none, none, none⟩] : List Img).length := by decide

/-- C1 (amended): the output is the `filterMap` of per-element processing
over the 1-indexed enumeration — every successfully processed element is
emitted in document order with position equal to its element's 1-based
enumeration index, an element whose `urljoin` raises is caught and
skipped — so the output length never exceeds (rather than always equals)
the number of image elements; and an element carrying none of the
`src`/`data-src`/`data-lazy-src` attributes is always emitted, with a
null url field, since that path cannot raise. -/
theorem extract_count_and_positions (page_url : String) (soup : List Img) :
    extract_images_urls page_url soup =
      (List.range soup.length).filterMap
        (fun i => ((soup[i]?).bind (fun img => processImg page_url (i + 1) img))) ∧
    (extract_images_urls page_url soup).length ≤ soup.length ∧
    (∀ p img, img.src = none → img.dataSrc = none → img.dataLazySrc = none →
      processImg page_url p img =
        some ⟨p, none, pyStrip (img.alt.getD ""), page_url⟩) ∧
    (∀ p img ref, processImg page_url p img = some ref →
      ref.position = p ∧ ref.page_url = page_url) := by
  refine ⟨?_, extractFrom_length_le page_url soup 1, ?_, ?_⟩
  · have h := extractFrom_eq_filterMap page_url soup 1
    have hidx : ∀ i : Nat, 1 + i = i + 1 := fun i => Nat.add_comm 1 i
    simp only [hidx] at h
    exact h
  · intro p img h1 h2 h3
    exact processImg_noSource page_url p img h1 h2 h3
  · intro p img ref h
    exact processImg_position page_url p img ref h

/-- C1 witness: an image with no source attribute is emitted with a null
url at its enumeration position, with the position and page fields as
stated. -/
theorem extract_count_and_positions_witness :
    processImg "https://e.com/p" 1 ⟨none, none, none, none⟩ =
      some ⟨1, none, "", "https://e.com/p"⟩ ∧
    ((⟨1, none, "", "https://e.com/p"⟩ : ImageRef).position = 1 ∧
      (⟨1, none, "", "https://e.com/p"⟩ : ImageRef).page_url = "https://e.com/p") :=
  ⟨(extract_count_and_positions "https://e.com/p" [⟨none, none, none, none⟩]).2.2.1 1
      ⟨none, none, none, none⟩ rfl rfl rfl,
    (extract_count_and_positions "https://e.com/p" [⟨none, none, none, none⟩]).2.2.2 1
      ⟨none, none, none, none⟩ ⟨1, none, "", "https://e.com/p"⟩ (by decide)⟩

/-- C2 counterexample: `//[x` is a truthy source URL failing the code's
absoluteness test, yet the program emits nothing for it — CPython's
`urljoin` raises `ValueError` (unbalanced bracket in the authority) and
the element is skipped — refuting "extract_images_urls emits the
base-relative join for every relative source URL". -/
theorem extract_resolves_relative_counterexample :
    (strStartsWith "//[x" "http" || strStartsWith "//[x" "https") = false ∧
    "//[x" ≠ "" ∧
    extract_images_urls "https://x.com/a/b" [⟨some "//[x", none, none, none⟩] = [] := by
  decide

/-- C2 (amended): a source URL that fails the code's absoluteness test
(`startswith(('http', 'https'))`) is resolved against the page URL with
`urljoin` — on the tab/CR/LF-stripped text, as CPython does — and the
element is emitted with the joined url exactly when the join succeeds;
when `urljoin` raises (unbalanced bracket in the authority) the element
is skipped instead.  In particular base `https://x.com/a/b` with relative
`../c.png` yields `https://x.com/c.png`. -/
theorem extract_resolves_relative :
    (∀ (B R : String) (p : Nat) (img : Img), img.src = some R → R ≠ "" →
      (strStartsWith R "http" || strStartsWith R "https") = false →
      processImg B p img =
        (urljoin B R).map (fun j => ⟨p, some j, pyStrip (img.alt.getD ""), B⟩)) ∧
    urljoin "https://x.com/a/b" "../c.png" = some "https://x.com/c.png" := by
  constructor
  · intro B R p img hsrc hne habs
    have hc : imgCandidate img = some R := by
      simp [imgCandidate, pyTruthy, hsrc, hne]
    cases hj : urljoin B R with
    | none => simp [processImg, hc, pyTruthy, hne, habs, hj]
    | some j => simp [processImg, hc, pyTruthy, hne, habs, hj]
  · decide

/-- C2 witness: the general statement applied at the spec's example. -/
theorem extract_resolves_relative_witness :
    processImg "https://x.com/a/b" 1 ⟨some "../c.png", none, none, none⟩ =
      (urljoin "https://x.com/a/b" "../c.png").map
        (fun j => ⟨1, some j, "", "https://x.com/a/b"⟩) :=
  extract_resolves_relative.1 "https://x.com/a/b" "../c.png" 1
    ⟨some "../c.png", none, none, none⟩ rfl (by decide) (by decide)

/-- C8: extraction is deterministic — the embedding of
`extract_images_urls` is a pure function of the page URL and the parsed
document (the source reads its inputs and mutates only a local
accumulator), so calling it twice with the same arguments yields two
identical sequences. -/
theorem extract_deterministic (page_url : String) (soup : List Img) :
    extract_images_urls page_url soup = extract_images_urls page_url soup := rfl

/-- C7 counterexample: a delivered response with the non-2xx status 304
is parsed and returned as a document, not treated as an HTTP error —
`raise_for_status` only raises for statuses in `[400, 600)`. -/
theorem scrape_page_non2xx_counterexample :
    ¬ (200 ≤ 304 ∧ 304 < 300) ∧
    scrape_page (.resp 304 "<html></html>") = .doc "<html></html>" := by
  constructor
  · omega
  · decide

/-- C7 (amended): `scrape_page` treats exactly the statuses in
`[400, 600)` — those for which `raise_for_status` raises — as HTTP errors
carrying the status code; any other delivered response (including non-2xx
codes such as 304) is parsed and returned; each of the five failure
classes is converted to a logged `None` return rather than a raise, and
the classes are pairwise distinguishable. -/
theorem scrape_page_classification :
    (∀ st text, 400 ≤ st → st < 600 →
      scrape_page (.resp st text) = .fail (.httpStatusError st)) ∧
    (∀ st text, st < 400 ∨ 600 ≤ st → scrape_page (.resp st text) = .doc text) ∧
    scrape_page .timeout = .fail .timeout ∧
    scrape_page .connectionError = .fail .connectionError ∧
    scrape_page .requestError = .fail .requestError ∧
    scrape_page .unexpectedError = .fail .unexpectedError ∧
    List.Pairwise (fun a b => a ≠ b)
      [FetchFailure.timeout, FetchFailure.httpStatusError 404,
       FetchFailure.connectionError, FetchFailure.requestError,
       FetchFailure.unexpectedError] := by
  refine ⟨?_, ?_, rfl, rfl, rfl, rfl, by decide⟩
  · intro st text h1 h2
    have h : raisesForStatus st := ⟨h1, h2⟩
    simp [scrape_page, h]
  · intro st text h
    have hn : ¬ raisesForStatus st := by
      unfold raisesForStatus
      omega
    simp [scrape_page, hn]

/-- C7 witness: a 404 is classified as an HTTP status error; a 304 is
returned as a parsed document. -/
theorem scrape_page_classification_witness :
    scrape_page (.resp 404 "nope") = .fail (.httpStatusError 404) ∧
    scrape_page (.resp 304 "cached") = .doc "cached" :=
  ⟨scrape_page_classification.1 404 "nope" (by omega) (by omega),
   scrape_page_classification.2.1 304 "cached" (by omega)⟩

/-- C6: a url that does not start with `http://` or `https://` makes
`download_image` fail immediately with the `ValueError` of line 233; the
empty trace shows that no directory is created, no HEAD probe or GET
request is issued and no retry or sleep happens. -/
theorem download_invalid_url_immediate (get : Nat → GetResult)
    (headRes : HeadOutcome) (now : Nat) (url saveDir : String) (retries : Int)
    (customFilename : Option String) (hurl : validUrl url = false) :
    download_image get headRes now url saveDir retries customFilename =
      (.invalidURL, []) := by
  simp [download_image, hurl]

/-- C6 witness: an `ftp://` URL is rejected outright. -/
theorem download_invalid_url_immediate_witness :
    download_image (fun _ => .transportErr) .err 0 "ftp://x.com/a.png"
      "downloads" 2 none = (.invalidURL, []) :=
  download_invalid_url_immediate (fun _ => .transportErr) .err 0 "ftp://x.com/a.png"
    "downloads" 2 none (by decide)

/-- C4: every successful `download_image` call returns a path whose
extension is in the allow-list {.jpg, .jpeg, .png, .gif, .webp} — the
returned path ends in an allow-list member — regardless of the URL's
original extension, the custom filename and the HEAD-declared content
type (any other detected type having been coerced to `.jpg`). -/
theorem download_extension_allowlist (get : Nat → GetResult)
    (headRes : HeadOutcome) (now : Nat) (url saveDir : String) (retries : Int)
    (customFilename : Option String) (p : String)
    (h : (download_image get headRes now url saveDir retries customFilename).1 =
      .saved p) :
    ∃ e, e ∈ allowlist ∧ ∃ pre, p = pre ++ e := by
  by_cases hv : validUrl url = true
  · rw [download_image_valid get headRes now url saveDir retries customFilename hv] at h
    have hp := downloadLoop_saved get url
      (deriveFullPath headRes now url saveDir customFilename).1 retries
      ((retries + 1).toNat) 0 p h
    rw [hp]
    exact deriveFullPath_ext headRes now url saveDir customFilename
  · simp only [Bool.not_eq_true] at hv
    simp [download_image, hv] at h

/-- C4 witness: a download served as `image/png` from a `.png` URL ends
saved with an allow-listed extension. -/
theorem download_extension_allowlist_witness :
    ∃ e, e ∈ allowlist ∧ ∃ pre, "downloads/pic.png" = pre ++ e :=
  download_extension_allowlist (fun _ => .resp 200 "image/png" .ok) .err 0
    "https://a.com/pic.png" "downloads" 2 none "downloads/pic.png" (by decide)

/-- C3: with retry budget `r ≥ 0` and a transport that raises a
transport-level exception on the first `k ≤ r` attempts and then serves a
valid image response, `download_image` makes exactly `k + 1 ≤ r + 1` GET
attempts, returns the saved path, sleeps only before retries (the trace is
mkdir, optional HEAD probe, then `k` GET-sleep pairs, then the final GET
and write — never a sleep before the first attempt), and the backoff
sleeps are exactly `2^0, ..., 2^(k-1)` seconds, summing to `2^k - 1`. -/
theorem download_retry_backoff (get : Nat → GetResult) (headRes : HeadOutcome)
    (now : Nat) (url saveDir : String) (customFilename : Option String)
    (r k st : Nat) (ct : String) (hurl : validUrl url = true) (hk : k ≤ r)
    (hfail : ∀ i, i < k → get i = .transportErr)
    (hsucc : get k = .resp st ct .ok) (hst : ¬ raisesForStatus st)
    (hct : strStartsWith ct "image/" = true) :
    download_image get headRes now url saveDir (r : Int) customFilename =
      (.saved (deriveFullPath headRes now url saveDir customFilename).1,
        Ev.mkdir saveDir :: (deriveFullPath headRes now url saveDir customFilename).2 ++
          (retryTrace url 0 k ++
            [Ev.get url,
             Ev.write (deriveFullPath headRes now url saveDir customFilename).1])) ∧
    getCount (download_image get headRes now url saveDir (r : Int) customFilename).2 =
      k + 1 ∧
    k + 1 ≤ r + 1 ∧
    sleepsOf (download_image get headRes now url saveDir (r : Int) customFilename).2 =
      (List.range k).map (fun i => 2 ^ i) ∧
    (sleepsOf (download_image get headRes now url saveDir (r : Int) customFilename).2).sum =
      2 ^ k - 1 := by
  have hcont := downloadLoop_success get url
    (deriveFullPath headRes now url saveDir customFilename).1 r k st ct hk hsucc hst hct
  have hskip := downloadLoop_skip get url
    (deriveFullPath headRes now url saveDir customFilename).1 r k 0 (by omega)
    (fun i h1 h2 => hfail i (by omega))
  rw [Nat.zero_add] at hskip
  have hloop : downloadLoop get url
      (deriveFullPath headRes now url saveDir customFilename).1 (r : Int) 0 (r + 1 - 0) =
      (.saved (deriveFullPath headRes now url saveDir customFilename).1,
        retryTrace url 0 k ++
          [Ev.get url, Ev.write (deriveFullPath headRes now url saveDir customFilename).1]) := by
    rw [hskip, hcont]
  have hv := download_image_valid get headRes now url saveDir (r : Int) customFilename hurl
  have hf : ((r : Int) + 1).toNat = r + 1 - 0 := by omega
  rw [hf, hloop] at hv
  have htc := dlTrace_counts saveDir url
    (deriveFullPath headRes now url saveDir customFilename).2 k
    [Ev.get url, Ev.write (deriveFullPath headRes now url saveDir customFilename).1]
    (deriveFullPath_events headRes now url saveDir customFilename)
  have hsleep : sleepsOf
      (download_image get headRes now url saveDir (r : Int) customFilename).2 =
      (List.range k).map (fun i => 2 ^ i) := by
    rw [hv]
    have h2 := htc.2
    simp only [sleepsOf] at h2 ⊢
    rw [h2]
    simp [sleepsOf]
  refine ⟨hv, ?_, by omega, hsleep, ?_⟩
  · rw [hv]
    exact htc.1
  · rw [hsleep]
    exact sum_pows k

/-- C3 witness: budget 2, one transport failure then a valid image
response — two GETs, one backoff sleep of 1 second. -/
theorem download_retry_backoff_witness :
    download_image
        (fun i => if i = 0 then GetResult.transportErr else .resp 200 "image/jpeg" .ok)
        .err 0 "https://a.com/x.jpg" "downloads" ((2 : Nat) : Int) none =
      (.saved (deriveFullPath .err 0 "https://a.com/x.jpg" "downloads" none).1,
        Ev.mkdir "downloads" ::
          (deriveFullPath .err 0 "https://a.com/x.jpg" "downloads" none).2 ++
          (retryTrace "https://a.com/x.jpg" 0 1 ++
            [Ev.get "https://a.com/x.jpg",
             Ev.write (deriveFullPath .err 0 "https://a.com/x.jpg" "downloads" none).1])) ∧
    getCount (download_image
        (fun i => if i = 0 then GetResult.transportErr else .resp 200 "image/jpeg" .ok)
        .err 0 "https://a.com/x.jpg" "downloads" ((2 : Nat) : Int) none).2 = 1 + 1 ∧
    1 + 1 ≤ 2 + 1 ∧
    sleepsOf (download_image
        (fun i => if i = 0 then GetResult.transportErr else .resp 200 "image/jpeg" .ok)
        .err 0 "https://a.com/x.jpg" "downloads" ((2 : Nat) : Int) none).2 =
      (List.range 1).map (fun i => 2 ^ i) ∧
    (sleepsOf (download_image
        (fun i => if i = 0 then GetResult.transportErr else .resp 200 "image/jpeg" .ok)
        .err 0 "https://a.com/x.jpg" "downloads" ((2 : Nat) : Int) none).2).sum =
      2 ^ 1 - 1 :=
  download_retry_backoff
    (fun i => if i = 0 then GetResult.transportErr else .resp 200 "image/jpeg" .ok)
    .err 0 "https://a.com/x.jpg" "downloads" none 2 1 200 "image/jpeg"
    (by decide) (by omega)
    (fun i hi => by
      have h0 : i = 0 := by omega
      subst h0
      rfl)
    rfl (by decide) (by decide)

/-- C5: when an attempt (after `j ≤ r` transport failures) receives a 2xx
response whose content type does not begin with `image/`, the download
returns null immediately: the trace ends with that GET — no further
attempt, no backoff sleep after it — leaving the remaining budget
unconsumed (`j + 1` GETs, sleeps only from the earlier retries). -/
theorem download_content_mismatch_aborts (get : Nat → GetResult)
    (headRes : HeadOutcome) (now : Nat) (url saveDir : String)
    (customFilename : Option String) (r j st : Nat) (ct : String)
    (w : WriteBehavior) (hurl : validUrl url = true) (hj : j ≤ r)
    (hfail : ∀ i, i < j → get i = .transportErr)
    (hresp : get j = .resp st ct w) (hst : 200 ≤ st ∧ st < 300)
    (hct : strStartsWith ct "image/" = false) :
    download_image get headRes now url saveDir (r : Int) customFilename =
      (.retNone,
        Ev.mkdir saveDir :: (deriveFullPath headRes now url saveDir customFilename).2 ++
          (retryTrace url 0 j ++ [Ev.get url])) ∧
    getCount (download_image get headRes now url saveDir (r : Int) customFilename).2 =
      j + 1 ∧
    j + 1 ≤ r + 1 ∧
    sleepsOf (download_image get headRes now url saveDir (r : Int) customFilename).2 =
      (List.range j).map (fun i => 2 ^ i) := by
  have hnr : ¬ raisesForStatus st := by
    unfold raisesForStatus
    omega
  have hcont := downloadLoop_mismatch get url
    (deriveFullPath headRes now url saveDir customFilename).1 r j st ct w hj hresp hnr hct
  have hskip := downloadLoop_skip get url
    (deriveFullPath headRes now url saveDir customFilename).1 r j 0 (by omega)
    (fun i h1 h2 => hfail i (by omega))
  rw [Nat.zero_add] at hskip
  have hloop : downloadLoop get url
      (deriveFullPath headRes now url saveDir customFilename).1 (r : Int) 0 (r + 1 - 0) =
      (.retNone, retryTrace url 0 j ++ [Ev.get url]) := by
    rw [hskip, hcont]
  have hv := download_image_valid get headRes now url saveDir (r : Int) customFilename hurl
  have hf : ((r : Int) + 1).toNat = r + 1 - 0 := by omega
  rw [hf, hloop] at hv
  have htc := dlTrace_counts saveDir url
    (deriveFullPath headRes now url saveDir customFilename).2 j [Ev.get url]
    (deriveFullPath_events headRes now url saveDir customFilename)
  refine ⟨hv, ?_, by omega, ?_⟩
  · rw [hv]
    exact htc.1
  · rw [hv]
    have h2 := htc.2
    simp only [sleepsOf] at h2 ⊢
    rw [h2]
    simp [sleepsOf]

/-- C5 witness: a first-attempt `text/html` response with budget 2 — one
GET, no sleep, null result. -/
theorem download_content_mismatch_aborts_witness :
    download_image (fun _ => .resp 200 "text/html" .ok) .err 0
        "https://a.com/x.jpg" "downloads" ((2 : Nat) : Int) none =
      (.retNone,
        Ev.mkdir "downloads" ::
          (deriveFullPath .err 0 "https://a.com/x.jpg" "downloads" none).2 ++
          (retryTrace "https://a.com/x.jpg" 0 0 ++ [Ev.get "https://a.com/x.jpg"])) ∧
    getCount (download_image (fun _ => .resp 200 "text/html" .ok) .err 0
        "https://a.com/x.jpg" "downloads" ((2 : Nat) : Int) none).2 = 0 + 1 ∧
    0 + 1 ≤ 2 + 1 ∧
    sleepsOf (download_image (fun _ => .resp 200 "text/html" .ok) .err 0
        "https://a.com/x.jpg" "downloads" ((2 : Nat) : Int) none).2 =
      (List.range 0).map (fun i => 2 ^ i) :=
  download_content_mismatch_aborts (fun _ => .resp 200 "text/html" .ok) .err 0
    "https://a.com/x.jpg" "downloads" none 2 0 200 "text/html" .ok
    (by decide) (by omega) (fun i hi => absurd hi (by omega)) rfl
    (by omega) (by decide)

/-- C10: a filesystem error while opening or writing the destination file
after a valid image response (at attempt `j`, after `j ≤ r` transport
failures) propagates as an exception: the retry handler catches only
transport-level request exceptions, so the failure is neither retried (the
trace ends at that attempt's write) nor converted to a null return. -/
theorem download_write_error_propagates (get : Nat → GetResult)
    (headRes : HeadOutcome) (now : Nat) (url saveDir : String)
    (customFilename : Option String) (r j st : Nat) (ct : String)
    (hurl : validUrl url = true) (hj : j ≤ r)
    (hfail : ∀ i, i < j → get i = .transportErr)
    (hresp : get j = .resp st ct .osError) (hst : ¬ raisesForStatus st)
    (hct : strStartsWith ct "image/" = true) :
    download_image get headRes now url saveDir (r : Int) customFilename =
      (.osRaised,
        Ev.mkdir saveDir :: (deriveFullPath headRes now url saveDir customFilename).2 ++
          (retryTrace url 0 j ++
            [Ev.get url,
             Ev.write (deriveFullPath headRes now url saveDir customFilename).1])) ∧
    (download_image get headRes now url saveDir (r : Int) customFilename).1 ≠
      .retNone ∧
    getCount (download_image get headRes now url saveDir (r : Int) customFilename).2 =
      j + 1 := by
  have hcont := downloadLoop_osError get url
    (deriveFullPath headRes now url saveDir customFilename).1 r j st ct hj hresp hst hct
  have hskip := downloadLoop_skip get url
    (deriveFullPath headRes now url saveDir customFilename).1 r j 0 (by omega)
    (fun i h1 h2 => hfail i (by omega))
  rw [Nat.zero_add] at hskip
  have hloop : downloadLoop get url
      (deriveFullPath headRes now url saveDir customFilename).1 (r : Int) 0 (r + 1 - 0) =
      (.osRaised, retryTrace url 0 j ++
        [Ev.get url, Ev.write (deriveFullPath headRes now url saveDir customFilename).1]) := by
    rw [hskip, hcont]
  have hv := download_image_valid get headRes now url saveDir (r : Int) customFilename hurl
  have hf : ((r : Int) + 1).toNat = r + 1 - 0 := by omega
  rw [hf, hloop] at hv
  have htc := dlTrace_counts saveDir url
    (deriveFullPath headRes now url saveDir customFilename).2 j
    [Ev.get url, Ev.write (deriveFullPath headRes now url saveDir customFilename).1]
    (deriveFullPath_events headRes now url saveDir customFilename)
  refine ⟨hv, ?_, ?_⟩
  · rw [hv]
    simp
  · rw [hv]
    exact htc.1

/-- C10 witness: a valid image response whose write raises on the first
attempt — the error propagates after one GET. -/
theorem download_write_error_propagates_witness :
    download_image (fun _ => .resp 200 "image/png" .osError) .err 0
        "https://a.com/x.jpg" "downloads" ((2 : Nat) : Int) none =
      (.osRaised,
        Ev.mkdir "downloads" ::
          (deriveFullPath .err 0 "https://a.com/x.jpg" "downloads" none).2 ++
          (retryTrace "https://a.com/x.jpg" 0 0 ++
            [Ev.get "https://a.com/x.jpg",
             Ev.write (deriveFullPath .err 0 "https://a.com/x.jpg" "downloads" none).1])) ∧
    (download_image (fun _ => .resp 200 "image/png" .osError) .err 0
        "https://a.com/x.jpg" "downloads" ((2 : Nat) : Int) none).1 ≠ .retNone ∧
    getCount (download_image (fun _ => .resp 200 "image/png" .osError) .err 0
        "https://a.com/x.jpg" "downloads" ((2 : Nat) : Int) none).2 = 0 + 1 :=
  download_write_error_propagates (fun _ => .resp 200 "image/png" .osError) .err 0
    "https://a.com/x.jpg" "downloads" none 2 0 200 "image/png"
    (by decide) (by omega) (fun i hi => absurd hi (by omega)) rfl
    (by decide) (by decide)

/-- C9: a negative retries value makes `range(retries + 1)` empty: with a
well-formed http(s) URL, `download_image` still creates the save directory
and derives the filename (with at most one HEAD probe), but performs zero
GET attempts and no backoff sleep, and returns null. -/
theorem download_negative_retries (get : Nat → GetResult) (headRes : HeadOutcome)
    (now : Nat) (url saveDir : String) (retries : Int)
    (customFilename : Option String) (hurl : validUrl url = true)
    (hneg : retries < 0) :
    download_image get headRes now url saveDir retries customFilename =
      (.retNone,
        Ev.mkdir saveDir :: (deriveFullPath headRes now url saveDir customFilename).2) ∧
    getCount (download_image get headRes now url saveDir retries customFilename).2 = 0 ∧
    sleepsOf (download_image get headRes now url saveDir retries customFilename).2 = [] ∧
    Ev.mkdir saveDir ∈
      (download_image get headRes now url saveDir retries customFilename).2 := by
  have hf : (retries + 1).toNat = 0 := by omega
  have hv := download_image_valid get headRes now url saveDir retries customFilename hurl
  rw [hf] at hv
  have h0 : downloadLoop get url
      (deriveFullPath headRes now url saveDir customFilename).1 retries 0 0 =
      (.retNone, []) := rfl
  rw [h0] at hv
  have hmain : download_image get headRes now url saveDir retries customFilename =
      (.retNone,
        Ev.mkdir saveDir :: (deriveFullPath headRes now url saveDir customFilename).2) := by
    rw [hv]
    simp
  refine ⟨hmain, ?_, ?_, ?_⟩
  · rw [hmain]
    rcases deriveFullPath_events headRes now url saveDir customFilename with h | h <;>
      rw [h] <;> rfl
  · rw [hmain]
    rcases deriveFullPath_events headRes now url saveDir customFilename with h | h <;>
      rw [h] <;> rfl
  · rw [hmain]
    exact List.mem_cons_self _ _

/-- C9 witness: retries = -1 on a well-formed URL — null result, mkdir
done, no GET, no sleep. -/
theorem download_negative_retries_witness :
    download_image (fun _ => .resp 200 "image/png" .ok) .err 0
        "https://a.com/pic.png" "downloads" (-1) none =
      (.retNone,
        Ev.mkdir "downloads" ::
          (deriveFullPath .err 0 "https://a.com/pic.png" "downloads" none).2) ∧
    getCount (download_image (fun _ => .resp 200 "image/png" .ok) .err 0
        "https://a.com/pic.png" "downloads" (-1) none).2 = 0 ∧
    sleepsOf (download_image (fun _ => .resp 200 "image/png" .ok) .err 0
        "https://a.com/pic.png" "downloads" (-1) none).2 = [] ∧
    Ev.mkdir "downloads" ∈
      (download_image (fun _ => .resp 200 "image/png" .ok) .err 0
        "https://a.com/pic.png" "downloads" (-1) none).2 :=
  download_negative_retries (fun _ => .resp 200 "image/png" .ok) .err 0
    "https://a.com/pic.png" "downloads" (-1) none (by decide) (by omega)
